import Mathlib

/-
Verification of the hallocasa domain-connect client (client.ts / utils).
Shallow embedding: TS scalars become an inductive `Scalar`, JS objects used
as parameter maps become association lists, optional strings become
`Option String` with explicit JS-truthiness checks, and the network is an
explicit oracle argument together with a request log.
-/

set_option maxRecDepth 8192

namespace DomainConnect

/-- A JS scalar value (string | number | boolean) as used in parameter maps.
Numbers are modelled as integers; `String(value)` is `toJSString`. -/
inductive Scalar where
  | str (s : String)
  | num (n : Int)
  | bool (b : Bool)
deriving DecidableEq, Repr

/-- JS `String(value)` on a scalar: strings unchanged, numbers in decimal,
booleans as "true"/"false". -/
def Scalar.toJSString : Scalar → String
  | .str s => s
  | .num n => toString n
  | .bool true => "true"
  | .bool false => "false"

/-- A parameter map `Record<string, string | number | boolean>`, modelled as an
association list in object-key iteration order. -/
abbrev Params := List (String × Scalar)

/-- `params[name]`: `some v` when the key is present (even with a falsy value),
`none` when the key is absent (JS `undefined`). -/
def lookupParam : Params → String → Option Scalar
  | [], _ => none
  | (k, v) :: rest, n => if k = n then some v else lookupParam rest n

/-- Characters matched by the regex class `[a-zA-Z0-9_]`. -/
def isIdentChar (c : Char) : Bool := c.isAlpha || c.isDigit || c = '_'

/-- Try to match `([a-zA-Z0-9_]+)%` at the head of `l` (the part of a
placeholder after its opening `%`): on success, returns the identifier run
and the characters after the closing `%`. -/
def splitVar (l : List Char) : Option (List Char × List Char) :=
  let ident := l.takeWhile isIdentChar
  if ident.isEmpty then none
  else
    match l.drop ident.length with
    | '%' :: rest => some (ident, rest)
    | _ => none

/-- The replacement callback of `text.replace(/%([a-zA-Z0-9_]+)%/g, cb)`
applied to one whole match: the value's string form when the identifier is a
key of `params`, the match itself (delimiters included) otherwise. -/
def matchText (p : Params) (ident : List Char) : List Char :=
  match lookupParam p (String.mk ident) with
  | some v => (Scalar.toJSString v).data
  | none => '%' :: (ident ++ ['%'])

/-- One left-to-right pass of `text.replace(/%([a-zA-Z0-9_]+)%/g, cb)`:
at each `%`, greedily match an identifier and a closing `%`; replace the
match when the identifier is a key of `params`, keep it verbatim otherwise;
in both cases continue scanning after the closing `%`.  `fuel` only bounds
the recursion; it never runs out when it starts at the list length. -/
def scanSubst (p : Params) : Nat → List Char → List Char
  | 0, l => l
  | _ + 1, [] => []
  | fuel + 1, c :: rest =>
    if c = '%' then
      match splitVar rest with
      | some (ident, rest2) => matchText p ident ++ scanSubst p fuel rest2
      | none => c :: scanSubst p fuel rest
    else c :: scanSubst p fuel rest

/-- `replaceVariables(text, params)` from utils: regex-replace every
`%name%` placeholder whose name is a key of `params`. -/
def replaceVariables (text : String) (p : Params) : String :=
  ⟨scanSubst p text.data.length text.data⟩

example : replaceVariables "%a%b%c%" [("a", .str "X"), ("c", .num 7)] = "Xb7" := by decide
example : replaceVariables "%host%" [] = "%host%" := by decide
example : replaceVariables "%%a%" [("a", .str "Z")] = "%Z" := by decide
example : replaceVariables "%a%%b%" [("a", .str "1"), ("b", .str "2")] = "12" := by decide
example : replaceVariables "no vars" [("a", .str "X")] = "no vars" := by decide
example : replaceVariables "%flag%" [("flag", .bool true)] = "true" := by decide

/-- JS truthiness of an optional string field: defined and non-empty. -/
def jsTruthy : Option String → Bool
  | some s => !(s == "")
  | none => false

/-- A `TemplateRecord`: `host`/`pointsTo` are template strings; the other
fields are copied through resolution unchanged. -/
structure TemplateRecord where
  type : String
  host : String
  pointsTo : Option String
  ttl : Option Int
  priority : Option Int
  weight : Option Int
  port : Option Int
deriving DecidableEq, Repr

/-- A template parameter declaration (metadata fields that no embedded
operation reads are omitted). `required` is the JS truthiness of the
optional `required` flag. -/
structure TemplateParameter where
  name : String
  required : Bool
deriving DecidableEq, Repr

/-- A Domain Connect template (fields read by the embedded operations). -/
structure Template where
  providerId : String
  serviceId : String
  parameters : Option (List TemplateParameter)
  records : List TemplateRecord
deriving DecidableEq, Repr

/-- `generateRecords(template, params, domain, host?)` from utils: per record,
substitute variables into `host`; if the caller host is truthy, map `"@"` to
it and append `"." + host` to anything except the `"%host%"` sentinel; then
map a remaining `"%host%"` to the caller host (or `"@"` without one); finally
substitute variables into a truthy `pointsTo`.  `domain` is accepted but
unused, as in the source. -/
def generateRecords (template : Template) (params : Params) (domain : String)
    (host : Option String) : List TemplateRecord :=
  template.records.map fun record =>
    let h1 := replaceVariables record.host params
    let h2 :=
      if jsTruthy host then
        if h1 = "@" then host.getD ""
        else if h1 ≠ "%host%" then h1 ++ "." ++ host.getD ""
        else h1
      else h1
    let h3 :=
      if h2 = "%host%" then (if jsTruthy host then host.getD "" else "@")
      else h2
    let pointsTo2 :=
      match record.pointsTo with
      | some pt => if pt ≠ "" then some (replaceVariables pt params) else some pt
      | none => none
    { record with host := h3, pointsTo := pointsTo2 }

/-- The host-resolution pipeline of `generateRecords`, as the spec phrases it:
substitution, then the caller-host concatenation phase, then the `%host%`
sentinel phase. -/
def resolveHostSpec (rawHost : String) (params : Params) (host : Option String) : String :=
  let substituted := replaceVariables rawHost params
  let concatenated :=
    if jsTruthy host then
      if substituted = "@" then host.getD ""
      else if substituted ≠ "%host%" then substituted ++ "." ++ host.getD ""
      else substituted
    else substituted
  if concatenated = "%host%" then (if jsTruthy host then host.getD "" else "@")
  else concatenated

/-- A sample A record used for concrete checks. -/
def sampleRecord (h : String) : TemplateRecord :=
  { type := "A", host := h, pointsTo := some "%ip%", ttl := some 3600,
    priority := none, weight := none, port := none }

/-- A one-record sample template. -/
def sampleTemplate (h : String) : Template :=
  { providerId := "p", serviceId := "s", parameters := none,
    records := [sampleRecord h] }

example :
    (generateRecords (sampleTemplate "%host%") [] "example.com" (some "app")).map
      TemplateRecord.host = ["app"] := by decide
example :
    (generateRecords (sampleTemplate "%host%") [] "example.com" none).map
      TemplateRecord.host = ["@"] := by decide
example :
    (generateRecords (sampleTemplate "%subdomain%") [("subdomain", .str "www")]
      "example.com" (some "blog")).map TemplateRecord.host = ["www.blog"] := by decide
example :
    (generateRecords (sampleTemplate "@") [] "example.com" (some "blog")).map
      TemplateRecord.host = ["blog"] := by decide
example :
    (generateRecords (sampleTemplate "www") [] "example.com" none).map
      TemplateRecord.host = ["www"] := by decide

/-- Result of `validateParameters`. -/
structure ValidationResult where
  valid : Bool
  missing : List String
deriving DecidableEq, Repr

/-- `validateParameters(template, params)` from utils: with no parameter list,
everything is valid; otherwise collect the names of required parameters whose
key is absent from `params`. -/
def validateParameters (template : Template) (params : Params) : ValidationResult :=
  match template.parameters with
  | none => { valid := true, missing := [] }
  | some ps =>
    let missingParams :=
      (ps.filter fun param => param.required && (lookupParam params param.name).isNone).map
        fun param => param.name
    { valid := missingParams.length == 0, missing := missingParams }

/-- JS `hostname.split('.')` at the character-list level. -/
def splitOnDot : List Char → List (List Char)
  | [] => [[]]
  | c :: rest =>
    let r := splitOnDot rest
    if c = '.' then [] :: r
    else
      match r with
      | [] => [[c]]
      | s :: ss => (c :: s) :: ss

/-- Drop a literal pattern from the front of a character list, returning the
remainder on success. -/
def stripLead : List Char → List Char → Option (List Char)
  | [], l => some l
  | _ :: _, [] => none
  | p :: ps, c :: cs => if c = p then stripLead ps cs else none

/-- The alternatives of the second-level-domain regex. -/
def sldAlternatives : List String := ["co", "com", "net", "org", "gov", "edu"]

/-- The regex class `[a-z]`. -/
def isLowerAlpha (c : Char) : Bool := 'a' ≤ c && c ≤ 'z'

/-- Full match of the anchored regex `^(co|com|net|org|gov|edu)\.[a-z]\x7b2\x7d$`
against a string. -/
def sldMatch (tld : String) : Bool :=
  sldAlternatives.any fun alt =>
    match stripLead (alt.data ++ ['.']) tld.data with
    | some rest =>
      match rest with
      | [c1, c2] => isLowerAlpha c1 && isLowerAlpha c2
      | _ => false
    | none => false

/-- Result of `splitHostname`. -/
structure HostnameParts where
  domain : String
  subdomain : Option String
deriving DecidableEq, Repr

/-- `splitHostname(hostname)` from utils: split on dots; with more than two
labels, check the last two labels against the second-level-domain pattern and
peel off either the last three or the last two labels as the domain. -/
def splitHostname (hostname : String) : HostnameParts :=
  let parts := (splitOnDot hostname.data).map fun l => (⟨l⟩ : String)
  if parts.length > 2 then
    let tld := String.intercalate "." (parts.drop (parts.length - 2))
    if sldMatch tld then
      if parts.length > 3 then
        { domain := String.intercalate "." (parts.drop (parts.length - 3)),
          subdomain := some (String.intercalate "." (parts.take (parts.length - 3))) }
      else { domain := hostname, subdomain := none }
    else
      { domain := String.intercalate "." (parts.drop (parts.length - 2)),
        subdomain := some (String.intercalate "." (parts.take (parts.length - 2))) }
  else { domain := hostname, subdomain := none }

example : splitHostname "www.example.com" = ⟨"example.com", some "www"⟩ := by decide
example : splitHostname "example.co.uk" = ⟨"example.co.uk", none⟩ := by decide
example : splitHostname "www.example.co.uk" = ⟨"example.co.uk", some "www"⟩ := by decide
example : splitHostname "example.com" = ⟨"example.com", none⟩ := by decide
example : splitHostname "a.b.www.example.co.uk" = ⟨"example.co.uk", some "a.b.www"⟩ := by decide
example :
    validateParameters (sampleTemplate "x") [] = ⟨true, []⟩ := by decide
example :
    validateParameters { sampleTemplate "x" with
        parameters := some [⟨"ip", true⟩, ⟨"opt", false⟩, ⟨"z", true⟩] }
      [("ip", .num 0)] = ⟨false, ["z"]⟩ := by decide

/-- UTF-8 encoding of one code point, as byte values. -/
def utf8Bytes (c : Char) : List Nat :=
  let n := c.toNat
  if n < 0x80 then [n]
  else if n < 0x800 then [0xC0 + n / 0x40, 0x80 + n % 0x40]
  else if n < 0x10000 then
    [0xE0 + n / 0x1000, 0x80 + (n / 0x40) % 0x40, 0x80 + n % 0x40]
  else
    [0xF0 + n / 0x40000, 0x80 + (n / 0x1000) % 0x40, 0x80 + (n / 0x40) % 0x40,
      0x80 + n % 0x40]

/-- Bytes kept verbatim by `application/x-www-form-urlencoded` serialization:
ASCII alphanumerics and `*`, `-`, `.`, `_`. -/
def isFormByte (n : Nat) : Bool :=
  (0x30 ≤ n && n ≤ 0x39) || (0x41 ≤ n && n ≤ 0x5A) || (0x61 ≤ n && n ≤ 0x7A) ||
    n == 0x2A || n == 0x2D || n == 0x2E || n == 0x5F

/-- Uppercase hexadecimal digit for a value below 16. -/
def hexDigitChar (n : Nat) : Char :=
  if n < 10 then Char.ofNat (0x30 + n) else Char.ofNat (0x41 + n - 10)

/-- Form-urlencode a single byte: safe bytes verbatim, space as `+`, anything
else percent-escaped. -/
def encodeByte (n : Nat) : List Char :=
  if isFormByte n then [Char.ofNat n]
  else if n == 0x20 then ['+']
  else ['%', hexDigitChar (n / 16), hexDigitChar (n % 16)]

/-- `application/x-www-form-urlencoded` escaping of a string, as performed by
`URLSearchParams.toString()` on each key and value. -/
def formEncode (s : String) : String :=
  ⟨(s.data.flatMap utf8Bytes).flatMap encodeByte⟩

/-- Serialize an ordered list of key/value pairs the way
`URLSearchParams.toString()` does. -/
def encodeQuery (pairs : List (String × String)) : String :=
  String.intercalate "&" (pairs.map fun kv => formEncode kv.1 ++ "=" ++ formEncode kv.2)

/-- `URLSearchParams`: an insertion-ordered list of key/value pairs. -/
structure URLSearchParams where
  pairs : List (String × String)
deriving DecidableEq, Repr

/-- `new URLSearchParams()`. -/
def URLSearchParams.empty : URLSearchParams := ⟨[]⟩

/-- `queryParams.append(k, v)`. -/
def URLSearchParams.append (q : URLSearchParams) (k v : String) : URLSearchParams :=
  ⟨q.pairs ++ [(k, v)]⟩

/-- `queryParams.toString()`. -/
def URLSearchParams.serialize (q : URLSearchParams) : String := encodeQuery q.pairs

/-- `DomainConnectSettings`: the enabled flags are the JS truthiness of the
optional booleans; `urlAsyncAPI` stays optional so the `!settings.urlAsyncAPI`
check can be modelled. -/
structure DomainConnectSettings where
  urlAPI : String
  syncEnabled : Bool
  asyncEnabled : Bool
  urlAsyncAPI : Option String
deriving DecidableEq, Repr

/-- `DomainConnectOptions`: the per-request options object. -/
structure DomainConnectOptions where
  domain : String
  providerId : String
  serviceId : String
  params : Params
  host : Option String
  redirectUri : Option String
  state : Option String
  forcePermission : Bool
deriving DecidableEq, Repr

/-- `DomainConnectResult` (the fields the embedded operations produce). -/
structure DomainConnectResult where
  success : Bool
  redirectUrl : Option String
  error : Option String
deriving DecidableEq, Repr

/-- `generateSyncURL(settings, options)` from the client: the apply path under
`settings.urlAPI` plus a query of `domain`, truthy `host`, and every params
entry in iteration order. -/
def generateSyncURL (settings : DomainConnectSettings)
    (options : DomainConnectOptions) : String :=
  let apiUrl := settings.urlAPI ++ "/v2/domainTemplates/providers/" ++
    options.providerId ++ "/services/" ++ options.serviceId ++ "/apply"
  let q := URLSearchParams.empty.append "domain" options.domain
  let q := if jsTruthy options.host then q.append "host" (options.host.getD "") else q
  let q := options.params.foldl (fun q kv => q.append kv.1 (Scalar.toJSString kv.2)) q
  apiUrl ++ "?" ++ q.serialize

/-- `generateAsyncURL(settings, options)` from the client: `none` unless the
async flag and `urlAsyncAPI` are truthy; otherwise the apply path under
`urlAsyncAPI` plus a query of `domain`, truthy `host`, truthy `redirect_uri`,
truthy `state`, `force=true` when `forcePermission` holds, then every params
entry in iteration order. -/
def generateAsyncURL (settings : DomainConnectSettings)
    (options : DomainConnectOptions) : Option String :=
  if !settings.asyncEnabled || !jsTruthy settings.urlAsyncAPI then none
  else
    let apiUrl := settings.urlAsyncAPI.getD "" ++ "/v2/domainTemplates/providers/" ++
      options.providerId ++ "/services/" ++ options.serviceId ++ "/apply"
    let q := URLSearchParams.empty.append "domain" options.domain
    let q := if jsTruthy options.host then q.append "host" (options.host.getD "") else q
    let q := if jsTruthy options.redirectUri then
        q.append "redirect_uri" (options.redirectUri.getD "") else q
    let q := if jsTruthy options.state then q.append "state" (options.state.getD "") else q
    let q := if options.forcePermission then q.append "force" "true" else q
    let q := options.params.foldl (fun q kv => q.append kv.1 (Scalar.toJSString kv.2)) q
    some (apiUrl ++ "?" ++ q.serialize)

/-- Outcome of one `axios.get`: a resolved status code, or a thrown transport
failure with its message. -/
abbrev HttpGet := String → Except String Nat

/-- `applyTemplateSynchronous(settings, options)` from the client, with the
HTTP collaborator abstracted as `get` and the requested URLs logged: refuse
without a network call when sync is disabled, otherwise build the sync URL,
request it and map the outcome onto a `DomainConnectResult`. -/
def applyTemplateSynchronous (get : HttpGet) (settings : DomainConnectSettings)
    (options : DomainConnectOptions) : DomainConnectResult × List String :=
  if !settings.syncEnabled then
    ({ success := false, redirectUrl := none,
       error := some "Synchronous mode not supported by DNS provider" }, [])
  else
    let apiUrl := generateSyncURL settings options
    match get apiUrl with
    | .ok 200 => ({ success := true, redirectUrl := none, error := none }, [apiUrl])
    | .ok code =>
      ({ success := false, redirectUrl := none,
         error := some ("Unexpected status code: " ++ toString code) }, [apiUrl])
    | .error msg =>
      ({ success := false, redirectUrl := none, error := some msg }, [apiUrl])

/-- `applyTemplateAsynchronous(settings, options)` from the client, with the
HTTP collaborator abstracted and requested URLs logged: refuse when async is
unsupported, otherwise return the authorization redirect URL; no network
request happens on any path. -/
def applyTemplateAsynchronous (get : HttpGet) (settings : DomainConnectSettings)
    (options : DomainConnectOptions) : DomainConnectResult × List String :=
  if !settings.asyncEnabled || !jsTruthy settings.urlAsyncAPI then
    ({ success := false, redirectUrl := none,
       error := some "Asynchronous mode not supported by DNS provider" }, [])
  else
    let apiUrl := settings.urlAsyncAPI.getD "" ++ "/v2/domainTemplates/providers/" ++
      options.providerId ++ "/services/" ++ options.serviceId ++ "/apply"
    let q := URLSearchParams.empty.append "domain" options.domain
    let q := if jsTruthy options.host then q.append "host" (options.host.getD "") else q
    let q := if jsTruthy options.redirectUri then
        q.append "redirect_uri" (options.redirectUri.getD "") else q
    let q := if jsTruthy options.state then q.append "state" (options.state.getD "") else q
    let q := if options.forcePermission then q.append "force" "true" else q
    let q := options.params.foldl (fun q kv => q.append kv.1 (Scalar.toJSString kv.2)) q
    ({ success := true, redirectUrl := some (apiUrl ++ "?" ++ q.serialize),
       error := none }, [])

/-- A discovery response: HTTP status plus the parsed JSON body when truthy. -/
structure FetchResp where
  status : Nat
  data : Option DomainConnectSettings
deriving DecidableEq, Repr

/-- Outcome of one discovery `axios.get`. -/
abbrev HttpFetch := String → Except String FetchResp

/-- The primary discovery URL `https://_domainconnect.{domain}/v2/domainTemplates/providers`. -/
def discoveryPrimaryUrl (domain : String) : String :=
  "https://_domainconnect." ++ domain ++ "/v2/domainTemplates/providers"

/-- The fallback discovery URL `https://{domain}/.well-known/domain-connect.json`. -/
def discoveryFallbackUrl (domain : String) : String :=
  "https://" ++ domain ++ "/.well-known/domain-connect.json"

/-- The second discovery attempt of `discoverSettings`. -/
def discoverFallback (get : HttpFetch) (domain : String) :
    Option DomainConnectSettings × List String :=
  match get (discoveryFallbackUrl domain) with
  | .ok r =>
    match r.data with
    | some d => if r.status = 200 then (some d, [discoveryFallbackUrl domain])
                else (none, [discoveryFallbackUrl domain])
    | none => (none, [discoveryFallbackUrl domain])
  | .error _ => (none, [discoveryFallbackUrl domain])

/-- `discoverSettings(domain)` from the client, with the HTTP collaborator
abstracted and requested URLs logged: try the `_domainconnect.` subdomain
endpoint; whenever that attempt does not yield a 200 response with a truthy
body — including a thrown transport failure — fall back to the well-known
path on the domain itself; `none` when neither attempt succeeds. -/
def discoverSettings (get : HttpFetch) (domain : String) :
    Option DomainConnectSettings × List String :=
  match get (discoveryPrimaryUrl domain) with
  | .ok r =>
    match r.data with
    | some d =>
      if r.status = 200 then (some d, [discoveryPrimaryUrl domain])
      else
        let fb := discoverFallback get domain
        (fb.1, discoveryPrimaryUrl domain :: fb.2)
    | none =>
      let fb := discoverFallback get domain
      (fb.1, discoveryPrimaryUrl domain :: fb.2)
  | .error _ =>
    let fb := discoverFallback get domain
    (fb.1, discoveryPrimaryUrl domain :: fb.2)

example :
    generateSyncURL ⟨"https://api.x", true, true, some "https://a.x"⟩
      ⟨"example.com", "p1", "s1", [("ip", .str "1.2.3.4"), ("n", .num 5)],
        some "www", none, none, false⟩ =
      "https://api.x/v2/domainTemplates/providers/p1/services/s1/apply?domain=example.com&host=www&ip=1.2.3.4&n=5" := by
  decide

example :
    generateAsyncURL ⟨"https://api.x", true, true, some "https://a.x"⟩
      ⟨"example.com", "p1", "s1", [("ip", .str "a b")], none,
        some "https://cb.example/r?x=1", some "st", true⟩ =
      some "https://a.x/v2/domainTemplates/providers/p1/services/s1/apply?domain=example.com&redirect_uri=https%3A%2F%2Fcb.example%2Fr%3Fx%3D1&state=st&force=true&ip=a+b" := by
  decide

example :
    discoverSettings (fun _ => .ok ⟨200, some ⟨"https://u", true, false, none⟩⟩)
      "example.com" =
      (some ⟨"https://u", true, false, none⟩,
        ["https://_domainconnect.example.com/v2/domainTemplates/providers"]) := by
  decide

example :
    discoverSettings (fun u =>
        if u = discoveryPrimaryUrl "example.com" then .error "boom"
        else .ok ⟨200, some ⟨"https://u", true, false, none⟩⟩)
      "example.com" =
      (some ⟨"https://u", true, false, none⟩,
        ["https://_domainconnect.example.com/v2/domainTemplates/providers",
          "https://example.com/.well-known/domain-connect.json"]) := by
  decide

/-! Helper lemmas -/

/-- The pair list built by folding `append` over a parameter map. -/
theorem appendParams_pairs (ps : Params) (q : URLSearchParams) :
    (ps.foldl (fun q kv => q.append kv.1 (Scalar.toJSString kv.2)) q).pairs =
      q.pairs ++ ps.map fun kv => (kv.1, Scalar.toJSString kv.2) := by
  induction ps generalizing q with
  | nil => simp
  | cons kv rest ih =>
    rw [List.foldl_cons, ih]
    simp [URLSearchParams.append]

/-- Required parameters are never reported missing when their key is present,
and conversely: emptiness of the missing list is exactly presence of every
required key. -/
theorem missing_nil_iff (ps : List TemplateParameter) (p : Params) :
    ((ps.filter fun q => q.required && (lookupParam p q.name).isNone).map
        fun q => q.name) = [] ↔
      ∀ q ∈ ps, q.required = true → (lookupParam p q.name).isSome := by
  rw [List.map_eq_nil_iff, List.filter_eq_nil_iff]
  constructor
  · intro h q hq hreq
    have := h q hq
    simp [hreq] at this
    simpa [Option.isSome_iff_ne_none, Option.isNone_iff_eq_none] using this
  · intro h q hq
    by_cases hreq : q.required = true
    · have := h q hq hreq
      simp [hreq, Option.isNone_iff_eq_none]
      simpa [Option.isSome_iff_ne_none] using this
    · simp [Bool.eq_false_iff.mpr hreq]

/-- C3: `validate` returns valid with no missing names when the template has
no parameters list; otherwise `missing` is exactly the required parameters
whose name is not a key of the map, in declaration order, and `valid` holds
iff every required parameter name is a key of the map (a key with a falsy
value counts as provided, as the concrete check with value `0` shows). -/
theorem C3_validateParameters (t : Template) (p : Params) :
    (t.parameters = none → validateParameters t p = ⟨true, []⟩) ∧
    (∀ ps, t.parameters = some ps →
      (validateParameters t p).missing =
        (ps.filter fun q => q.required && (lookupParam p q.name).isNone).map
          (fun q => q.name) ∧
      ((validateParameters t p).valid = true ↔
        ∀ q ∈ ps, q.required = true → (lookupParam p q.name).isSome)) ∧
    validateParameters
      { providerId := "p", serviceId := "s",
        parameters := some [⟨"n", true⟩], records := [] }
      [("n", Scalar.num 0)] = ⟨true, []⟩ := by
  refine ⟨fun h => by simp [validateParameters, h], fun ps hps => ?_, by decide⟩
  constructor
  · simp [validateParameters, hps]
  · simp only [validateParameters, hps, beq_iff_eq, List.length_eq_zero]
    exact missing_nil_iff ps p

/-- C3 witness: the general clauses of `C3_validateParameters` instantiated on
a concrete template whose required parameter `z` is absent. -/
theorem C3_witness :
    (validateParameters
        { providerId := "p", serviceId := "s",
          parameters := some [⟨"ip", true⟩, ⟨"z", true⟩], records := [] }
        [("ip", Scalar.str "1.2.3.4")]).missing = ["z"] := by
  have h := (C3_validateParameters
      { providerId := "p", serviceId := "s",
        parameters := some [⟨"ip", true⟩, ⟨"z", true⟩], records := [] }
      [("ip", Scalar.str "1.2.3.4")]).2.1 [⟨"ip", true⟩, ⟨"z", true⟩] rfl
  rw [h.1]
  decide

/-- C4: `split` keeps a hostname of at most two labels whole; with more than
two labels it inspects the last two labels joined by a dot against the
second-level-domain pattern, peeling off the last three labels (when at least
four exist) or keeping the whole hostname (at exactly three), and otherwise
peels off the last two labels; in particular on "www.example.com",
"example.co.uk" and "www.example.co.uk". -/
theorem C4_splitHostname (hostname : String) :
    (∀ parts, parts = (splitOnDot hostname.data).map (fun l => (⟨l⟩ : String)) →
      (parts.length ≤ 2 → splitHostname hostname = ⟨hostname, none⟩) ∧
      (parts.length > 2 →
        (sldMatch (String.intercalate "." (parts.drop (parts.length - 2))) = true →
          (parts.length > 3 →
            splitHostname hostname =
              ⟨String.intercalate "." (parts.drop (parts.length - 3)),
                some (String.intercalate "." (parts.take (parts.length - 3)))⟩) ∧
          (parts.length = 3 → splitHostname hostname = ⟨hostname, none⟩)) ∧
        (sldMatch (String.intercalate "." (parts.drop (parts.length - 2))) = false →
          splitHostname hostname =
            ⟨String.intercalate "." (parts.drop (parts.length - 2)),
              some (String.intercalate "." (parts.take (parts.length - 2)))⟩))) ∧
    splitHostname "www.example.com" = ⟨"example.com", some "www"⟩ ∧
    splitHostname "example.co.uk" = ⟨"example.co.uk", none⟩ ∧
    splitHostname "www.example.co.uk" = ⟨"example.co.uk", some "www"⟩ := by
  refine ⟨fun parts hparts => ⟨fun hle => ?_, fun hgt => ⟨fun hsld => ⟨fun h4 => ?_, fun h3 => ?_⟩, fun hnot => ?_⟩⟩,
    by decide, by decide, by decide⟩
  · rw [splitHostname, ← hparts, if_neg (by omega)]
  · rw [splitHostname, ← hparts, if_pos hgt, if_pos hsld, if_pos h4]
  · rw [splitHostname, ← hparts, if_pos hgt, if_pos hsld, if_neg (by omega)]
  · rw [splitHostname, ← hparts, if_pos hgt, if_neg (by simp [hnot])]

/-- C4 witness: the general clauses of `C4_splitHostname` instantiated on the
five-label hostname "a.b.www.example.com". -/
theorem C4_witness :
    splitHostname "a.b.www.example.com" = ⟨"example.com", some "a.b.www"⟩ := by
  have h := ((C4_splitHostname "a.b.www.example.com").1
      ["a", "b", "www", "example", "com"] (by decide)).2 (by decide)
  rw [(h.2 (by decide))]
  decide

/-- C5: the synchronous apply URL is the apply path under `settings.urlAPI`
followed by `?` and the encoded query whose parameters are, in order:
`domain` always, `host` exactly when the options carry a truthy host, then
every params entry in map-iteration order, each value stringified like the
substitution engine stringifies scalars. -/
theorem C5_generateSyncURL (s : DomainConnectSettings) (o : DomainConnectOptions) :
    generateSyncURL s o =
      s.urlAPI ++ "/v2/domainTemplates/providers/" ++ o.providerId ++ "/services/" ++
        o.serviceId ++ "/apply" ++ "?" ++
        encodeQuery (("domain", o.domain) ::
          ((if jsTruthy o.host then [("host", o.host.getD "")] else []) ++
            o.params.map fun kv => (kv.1, Scalar.toJSString kv.2))) := by
  rw [generateSyncURL]
  simp only [URLSearchParams.serialize, appendParams_pairs]
  cases h : jsTruthy o.host <;>
    simp [h, URLSearchParams.append, URLSearchParams.empty]

/-- C7: the asynchronous URL builder yields `null` whenever the async flag is
falsy or `urlAsyncAPI` is not a non-empty string, the orchestration wrapper
performs no network request in that case, and otherwise the builder returns
the apply URL under `urlAsyncAPI` with query parameters in the order `domain`,
`host` (if truthy), `redirect_uri` (if truthy, form-encoded), `state` (if
truthy), `force=true` (if `forcePermission`), then all params entries. -/
theorem C7_generateAsyncURL (get : HttpGet) (s : DomainConnectSettings)
    (o : DomainConnectOptions) :
    ((s.asyncEnabled = false ∨ jsTruthy s.urlAsyncAPI = false) →
      generateAsyncURL s o = none ∧ (applyTemplateAsynchronous get s o).2 = []) ∧
    (∀ u, s.asyncEnabled = true → s.urlAsyncAPI = some u → u ≠ "" →
      generateAsyncURL s o =
        some (u ++ "/v2/domainTemplates/providers/" ++ o.providerId ++ "/services/" ++
          o.serviceId ++ "/apply" ++ "?" ++
          encodeQuery (("domain", o.domain) ::
            ((if jsTruthy o.host then [("host", o.host.getD "")] else []) ++
              (if jsTruthy o.redirectUri then [("redirect_uri", o.redirectUri.getD "")] else []) ++
              (if jsTruthy o.state then [("state", o.state.getD "")] else []) ++
              (if o.forcePermission then [("force", "true")] else []) ++
              o.params.map fun kv => (kv.1, Scalar.toJSString kv.2))))) := by
  constructor
  · intro h
    have hc : (!s.asyncEnabled || !jsTruthy s.urlAsyncAPI) = true := by
      rcases h with h | h <;> simp [h]
    exact ⟨by rw [generateAsyncURL, if_pos hc], by rw [applyTemplateAsynchronous, if_pos hc]⟩
  · intro u hA hU hne
    have hc : (!s.asyncEnabled || !jsTruthy s.urlAsyncAPI) = false := by
      simp [hA, hU, jsTruthy, hne]
    rw [generateAsyncURL, if_neg (by simp [hc])]
    simp only [URLSearchParams.serialize, appendParams_pairs]
    cases h1 : jsTruthy o.host <;> cases h2 : jsTruthy o.redirectUri <;>
      cases h3 : jsTruthy o.state <;> cases h4 : o.forcePermission <;>
      simp [h1, h2, h3, h4, hU, URLSearchParams.append, URLSearchParams.empty]

/-- C7 witness: `C7_generateAsyncURL` instantiated with async disabled (the
builder yields `null` and the wrapper logs no request) — hypotheses discharged
at a concrete settings/options pair. -/
theorem C7_witness :
    generateAsyncURL ⟨"https://api.x", true, false, some "https://a.x"⟩
        ⟨"example.com", "p1", "s1", [], none, none, none, false⟩ = none ∧
      (applyTemplateAsynchronous (fun _ => .ok 200)
        ⟨"https://api.x", true, false, some "https://a.x"⟩
        ⟨"example.com", "p1", "s1", [], none, none, none, false⟩).2 = [] :=
  (C7_generateAsyncURL (fun _ => .ok 200)
      ⟨"https://api.x", true, false, some "https://a.x"⟩
      ⟨"example.com", "p1", "s1", [], none, none, none, false⟩).1 (Or.inl rfl)

/-- C8: both apply wrappers short-circuit with the mode-not-supported error
and an empty request log when the corresponding mode is unsupported: sync when
`syncEnabled` is falsy, async when `asyncEnabled` is falsy or `urlAsyncAPI`
is not a truthy string. -/
theorem C8_apply_short_circuit (get : HttpGet) (s : DomainConnectSettings)
    (o : DomainConnectOptions) :
    (s.syncEnabled = false →
      applyTemplateSynchronous get s o =
        ({ success := false, redirectUrl := none,
           error := some "Synchronous mode not supported by DNS provider" }, [])) ∧
    ((s.asyncEnabled = false ∨ jsTruthy s.urlAsyncAPI = false) →
      applyTemplateAsynchronous get s o =
        ({ success := false, redirectUrl := none,
           error := some "Asynchronous mode not supported by DNS provider" }, [])) := by
  constructor
  · intro h
    rw [applyTemplateSynchronous, if_pos (by simp [h])]
  · intro h
    have hc : (!s.asyncEnabled || !jsTruthy s.urlAsyncAPI) = true := by
      rcases h with h | h <;> simp [h]
    rw [applyTemplateAsynchronous, if_pos hc]

/-- C8 witness: `C8_apply_short_circuit` at a concrete settings object with
both modes disabled, under an HTTP collaborator that would answer 200. -/
theorem C8_witness :
    applyTemplateSynchronous (fun _ => .ok 200)
        ⟨"https://api.x", false, false, none⟩
        ⟨"example.com", "p1", "s1", [], none, none, none, false⟩ =
      ({ success := false, redirectUrl := none,
         error := some "Synchronous mode not supported by DNS provider" }, []) ∧
    applyTemplateAsynchronous (fun _ => .ok 200)
        ⟨"https://api.x", false, false, none⟩
        ⟨"example.com", "p1", "s1", [], none, none, none, false⟩ =
      ({ success := false, redirectUrl := none,
         error := some "Asynchronous mode not supported by DNS provider" }, []) := by
  have h := C8_apply_short_circuit (fun _ => .ok 200)
    ⟨"https://api.x", false, false, none⟩
    ⟨"example.com", "p1", "s1", [], none, none, none, false⟩
  exact ⟨h.1 rfl, h.2 (Or.inl rfl)⟩

/-- C9: discovery always requests the `_domainconnect.` well-known URL first;
a 200 response with a truthy body there is returned immediately with no second
request; a transport failure there triggers exactly one fallback request to
the well-known path under the domain itself, whose 200-with-body response is
returned and whose failure yields `null` — the total result type itself shows
no fetch failure ever propagates. -/
theorem C9_discoverSettings (get : HttpFetch) (domain : String) :
    ((discoverSettings get domain).2.head? = some (discoveryPrimaryUrl domain)) ∧
    (∀ r d, get (discoveryPrimaryUrl domain) = .ok r → r.status = 200 → r.data = some d →
      discoverSettings get domain = (some d, [discoveryPrimaryUrl domain])) ∧
    (∀ e, get (discoveryPrimaryUrl domain) = .error e →
      (discoverSettings get domain).2 =
        [discoveryPrimaryUrl domain, discoveryFallbackUrl domain] ∧
      (∀ r d, get (discoveryFallbackUrl domain) = .ok r → r.status = 200 →
        r.data = some d → (discoverSettings get domain).1 = some d) ∧
      (∀ e2, get (discoveryFallbackUrl domain) = .error e2 →
        (discoverSettings get domain).1 = none)) := by
  refine ⟨?_, fun r d hok hst hd => ?_, fun e herr => ⟨?_, fun r d hok hst hd => ?_, fun e2 herr2 => ?_⟩⟩
  · rw [discoverSettings]
    cases hp : get (discoveryPrimaryUrl domain) with
    | ok r =>
      cases hd : r.data with
      | none => simp [hd]
      | some d => by_cases hst : r.status = 200 <;> simp [hd, hst]
    | error e => simp
  · rw [discoverSettings, hok]
    simp [hd, hst]
  · rw [discoverSettings, herr, discoverFallback]
    cases hf : get (discoveryFallbackUrl domain) with
    | ok r =>
      cases hd : r.data with
      | none => simp [hd]
      | some d => by_cases hst : r.status = 200 <;> simp [hd, hst]
    | error e2 => simp
  · rw [discoverSettings, herr, discoverFallback, hok]
    simp [hd, hst]
  · rw [discoverSettings, herr, discoverFallback, herr2]

/-- C9 witness: `C9_discoverSettings` instantiated with a collaborator whose
primary attempt throws and whose fallback answers 200 with a settings body. -/
theorem C9_witness :
    (discoverSettings
        (fun u => if u = discoveryPrimaryUrl "example.com" then .error "boom"
          else .ok ⟨200, some ⟨"https://u", true, false, none⟩⟩)
        "example.com").1 = some ⟨"https://u", true, false, none⟩ := by
  have h := (C9_discoverSettings
      (fun u => if u = discoveryPrimaryUrl "example.com" then .error "boom"
        else .ok ⟨200, some ⟨"https://u", true, false, none⟩⟩)
      "example.com").2.2 "boom" rfl
  exact h.2.1 ⟨200, some ⟨"https://u", true, false, none⟩⟩
    ⟨"https://u", true, false, none⟩ rfl rfl rfl

/-- C10: with async enabled and a truthy `urlAsyncAPI`, the asynchronous
apply wrapper performs no HTTP request and returns success with a redirect
URL exactly equal to the string produced by `generateAsyncURL` on the same
settings and options. -/
theorem C10_async_wrapper_refines_url_builder (get : HttpGet)
    (s : DomainConnectSettings) (o : DomainConnectOptions)
    (hA : s.asyncEnabled = true) (hU : jsTruthy s.urlAsyncAPI = true) :
    (applyTemplateAsynchronous get s o).2 = [] ∧
    ∃ u, generateAsyncURL s o = some u ∧
      (applyTemplateAsynchronous get s o).1 =
        { success := true, redirectUrl := some u, error := none } := by
  have hc : (!s.asyncEnabled || !jsTruthy s.urlAsyncAPI) = false := by simp [hA, hU]
  rw [applyTemplateAsynchronous, if_neg (by simp [hc]), generateAsyncURL,
    if_neg (by simp [hc])]
  exact ⟨rfl, _, rfl, rfl⟩

/-- C10 witness: `C10_async_wrapper_refines_url_builder` at a concrete
enabled settings object, with a collaborator that would answer 200. -/
theorem C10_witness :
    (applyTemplateAsynchronous (fun _ => .ok 200)
        ⟨"https://api.x", true, true, some "https://a.x"⟩
        ⟨"example.com", "p1", "s1", [], none, none, none, false⟩).2 = [] ∧
    ∃ u, generateAsyncURL ⟨"https://api.x", true, true, some "https://a.x"⟩
        ⟨"example.com", "p1", "s1", [], none, none, none, false⟩ = some u ∧
      (applyTemplateAsynchronous (fun _ => .ok 200)
          ⟨"https://api.x", true, true, some "https://a.x"⟩
          ⟨"example.com", "p1", "s1", [], none, none, none, false⟩).1 =
        { success := true, redirectUrl := some u, error := none } :=
  C10_async_wrapper_refines_url_builder (fun _ => .ok 200)
    ⟨"https://api.x", true, true, some "https://a.x"⟩
    ⟨"example.com", "p1", "s1", [], none, none, none, false⟩ rfl (by decide)

/-- The host produced by `generateRecords` for each record is the three-phase
pipeline `resolveHostSpec` applied to its raw host. -/
theorem generateRecords_host (t : Template) (p : Params) (d : String)
    (h : Option String) :
    (generateRecords t p d h).map TemplateRecord.host =
      t.records.map fun r => resolveHostSpec r.host p h := by
  rw [generateRecords, List.map_map]
  rfl

/-- C1: host resolution substitutes variables first, then runs the caller-host
concatenation phase (`"@"` becomes the caller host; anything but the
`"%host%"` sentinel gets `"." + host` appended), and only then resolves a
remaining `"%host%"` to the caller host, or to `"@"` when no caller host was
given; hence a raw host `"%host%"` with caller host "app" resolves to "app"
(never "app.app"), with no caller host to "@", and `"%subdomain%"` with
`subdomain="www"` under caller host "blog" to "www.blog". -/
theorem C1_host_resolution_order :
    (∀ t p d h, (generateRecords t p d h).map TemplateRecord.host =
      t.records.map fun r => resolveHostSpec r.host p h) ∧
    (generateRecords (sampleTemplate "%host%") [] "example.com" (some "app")).map
      TemplateRecord.host = ["app"] ∧
    (generateRecords (sampleTemplate "%host%") [] "example.com" none).map
      TemplateRecord.host = ["@"] ∧
    (generateRecords (sampleTemplate "%subdomain%") [("subdomain", .str "www")]
      "example.com" (some "blog")).map TemplateRecord.host = ["www.blog"] ∧
    (generateRecords (sampleTemplate "@") [] "example.com" (some "app")).map
      TemplateRecord.host = ["app"] :=
  ⟨generateRecords_host, by decide, by decide, by decide, by decide⟩

/-- With a truthy caller host, the resolution pipeline lands on the caller
host itself or on something dot-suffixed with it. -/
theorem resolveHostSpec_some (raw : String) (p : Params) (ch : String)
    (hch : ch ≠ "") :
    resolveHostSpec raw p (some ch) = ch ∨
    ∃ s2, resolveHostSpec raw p (some ch) = s2 ++ "." ++ ch := by
  have ht : jsTruthy (some ch) = true := by simp [jsTruthy, hch]
  rw [resolveHostSpec]
  simp only [ht, if_true, Option.getD_some]
  by_cases h1 : replaceVariables raw p = "@"
  · simp only [h1, if_pos rfl]
    by_cases h2 : ch = "%host%" <;> simp [h2]
  · by_cases h2 : replaceVariables raw p = "%host%"
    · simp [h1, h2]
    · simp only [if_neg h1, if_neg (by simpa using h2), if_pos (by simpa using h2)]
      by_cases h3 : replaceVariables raw p ++ "." ++ ch = "%host%"
      · simp [h3]
      · exact Or.inr ⟨replaceVariables raw p, by simp [h3]⟩

/-- Without a caller host, the resolution pipeline returns the substituted
raw host, or `"@"` when that is the `"%host%"` sentinel. -/
theorem resolveHostSpec_none (raw : String) (p : Params) :
    resolveHostSpec raw p none = "@" ∨
    resolveHostSpec raw p none = replaceVariables raw p := by
  rw [resolveHostSpec]
  simp only [jsTruthy, Bool.false_eq_true, if_false]
  by_cases h : replaceVariables raw p = "%host%" <;> simp [h]

/-- C6 counterexample: the claimed invariant — every resolved host is the
caller host, `"@"`, or a dot-concatenation with the caller host — fails at
the concrete record with raw host "www" resolved with no caller host, whose
resolved host is "www". -/
theorem C6_counterexample :
    ¬ (∀ t p d host r2, r2 ∈ generateRecords t p d host →
        (∃ ch, host = some ch ∧ r2.host = ch) ∨ r2.host = "@" ∨
        (∃ ch s2, host = some ch ∧ r2.host = s2 ++ "." ++ ch)) := by
  intro hclaim
  rcases hclaim (sampleTemplate "www") [] "example.com" none
      ⟨"A", "www", some "%ip%", some 3600, none, none, none⟩ (by decide) with
    ⟨ch, hch, _⟩ | hat | ⟨ch, s2, hch, _⟩
  · exact Option.noConfusion hch
  · exact absurd hat (by decide)
  · exact Option.noConfusion hch

/-- C6 amended: when a non-empty caller host is given, every resolved host is
the caller host itself or a string followed by "." and the caller host; when
no caller host is given, every resolved host is "@" or the plain
variable-substituted raw host of its record. -/
theorem C6_amended_host_invariant (t : Template) (p : Params) (d : String) :
    (∀ ch, ch ≠ "" → ∀ r2 ∈ generateRecords t p d (some ch),
      r2.host = ch ∨ ∃ s2, r2.host = s2 ++ "." ++ ch) ∧
    (∀ r2 ∈ generateRecords t p d none,
      r2.host = "@" ∨ ∃ r ∈ t.records, r2.host = replaceVariables r.host p) := by
  constructor
  · intro ch hch r2 hr2
    have hmem : r2.host ∈ (generateRecords t p d (some ch)).map TemplateRecord.host :=
      List.mem_map_of_mem _ hr2
    rw [generateRecords_host] at hmem
    rcases List.mem_map.mp hmem with ⟨r, _, hr⟩
    rw [← hr]
    exact resolveHostSpec_some r.host p ch hch
  · intro r2 hr2
    have hmem : r2.host ∈ (generateRecords t p d none).map TemplateRecord.host :=
      List.mem_map_of_mem _ hr2
    rw [generateRecords_host] at hmem
    rcases List.mem_map.mp hmem with ⟨r, hrmem, hr⟩
    rcases resolveHostSpec_none r.host p with h | h
    · exact Or.inl (by rw [← hr, h])
    · exact Or.inr ⟨r, hrmem, by rw [← hr, h]⟩

/-- C6 amended witness: `C6_amended_host_invariant` instantiated on a
one-record template under caller host "blog" and under no caller host. -/
theorem C6_amended_witness :
    ((sampleRecord "www.blog").host = "blog" ∨
      ∃ s2, (sampleRecord "www.blog").host = s2 ++ "." ++ "blog") ∧
    ((sampleRecord "www").host = "@" ∨
      ∃ r ∈ (sampleTemplate "www").records,
        (sampleRecord "www").host = replaceVariables r.host []) := by
  have h := C6_amended_host_invariant (sampleTemplate "www") [] "example.com"
  constructor
  · have h1 := h.1 "blog" (by decide)
      ⟨"A", "www.blog", some "%ip%", some 3600, none, none, none⟩ (by decide)
    simpa [sampleRecord] using h1
  · have h2 := h.2 ⟨"A", "www", some "%ip%", some 3600, none, none, none⟩ (by decide)
    simpa [sampleRecord] using h2

/-- A run of identifier characters followed by `%` is what `takeWhile`
collects. -/
theorem takeWhile_ident_append (i r : List Char)
    (h2 : ∀ c ∈ i, isIdentChar c = true) :
    (i ++ '%' :: r).takeWhile isIdentChar = i := by
  induction i with
  | nil => simp [List.takeWhile_cons, isIdentChar]
  | cons c cs ih =>
    have hc : isIdentChar c = true := h2 c (by simp)
    simp only [List.cons_append, List.takeWhile_cons, hc, if_true]
    rw [ih fun c hc => h2 c (by simp [hc])]

/-- `splitVar` recognizes an identifier run followed by the closing `%`. -/
theorem splitVar_ident (i r : List Char) (h1 : i ≠ [])
    (h2 : ∀ c ∈ i, isIdentChar c = true) :
    splitVar (i ++ '%' :: r) = some (i, r) := by
  rw [splitVar]
  simp only [takeWhile_ident_append i r h2, List.isEmpty_iff]
  rw [if_neg h1, List.drop_left]
  rfl

/-- Unfolding of the scan at a successful placeholder match. -/
theorem scanSubst_succ_some (p : Params) (f : Nat) (c : Char)
    (rest ident rest2 : List Char) (hc : c = '%')
    (hsv : splitVar rest = some (ident, rest2)) :
    scanSubst p (f + 1) (c :: rest) = matchText p ident ++ scanSubst p f rest2 := by
  subst hc
  rw [scanSubst, if_pos rfl, hsv]

/-- Unfolding of the scan at a character opening no placeholder match. -/
theorem scanSubst_succ_none (p : Params) (f : Nat) (c : Char) (rest : List Char)
    (h : c ≠ '%' ∨ splitVar rest = none) :
    scanSubst p (f + 1) (c :: rest) = c :: scanSubst p f rest := by
  by_cases hc : c = '%'
  · subst hc
    rcases h with h | h
    · exact absurd rfl h
    · rw [scanSubst, if_pos rfl, h]
  · rw [scanSubst, if_neg hc]

/-- A successful `splitVar` consumes at least the identifier and both
delimiters minus the opening one. -/
theorem splitVar_length (l i r : List Char) (h : splitVar l = some (i, r)) :
    r.length + 2 ≤ l.length := by
  rw [splitVar] at h
  split at h
  · exact absurd h (by simp)
  · rename_i hne
    split at h
    · rename_i rest hd
      injection h with h'
      injection h' with hi hr
      subst hr
      have hlen : (l.drop (l.takeWhile isIdentChar).length).length =
          l.length - (l.takeWhile isIdentChar).length := List.length_drop _ _
      rw [hd] at hlen
      have hle : (l.takeWhile isIdentChar).length ≤ l.length :=
        (l.takeWhile_sublist isIdentChar).length_le
      have hpos : (l.takeWhile isIdentChar).length ≠ 0 := by
        simpa [List.length_eq_zero, List.isEmpty_iff] using hne
      simp only [List.length_cons] at hlen
      omega
    · exact absurd h (by simp)

/-- `scanSubst` does not depend on the fuel once the fuel covers the input
length. -/
theorem scanSubst_fuel_eq (p : Params) :
    ∀ f1 f2 l, l.length ≤ f1 → l.length ≤ f2 →
      scanSubst p f1 l = scanSubst p f2 l := by
  intro f1
  induction f1 with
  | zero =>
    intro f2 l h1 h2
    have : l = [] := by simpa [List.length_eq_zero] using Nat.le_zero.mp h1
    subst this
    cases f2 <;> rfl
  | succ f1 ih =>
    intro f2 l h1 h2
    cases l with
    | nil => cases f2 <;> rfl
    | cons c rest =>
      cases f2 with
      | zero => simp at h2
      | succ f2 =>
        simp only [List.length_cons, Nat.add_le_add_iff_right] at h1 h2
        by_cases hc : c = '%'
        · cases hsv : splitVar rest with
          | none =>
            rw [scanSubst_succ_none p f1 c rest (Or.inr hsv),
              scanSubst_succ_none p f2 c rest (Or.inr hsv), ih f2 rest h1 h2]
          | some pr =>
            obtain ⟨ident, rest2⟩ := pr
            have hlen := splitVar_length rest ident rest2 hsv
            rw [scanSubst_succ_some p f1 c rest ident rest2 hc hsv,
              scanSubst_succ_some p f2 c rest ident rest2 hc hsv,
              ih f2 rest2 (by omega) (by omega)]
        · rw [scanSubst_succ_none p f1 c rest (Or.inl hc),
            scanSubst_succ_none p f2 c rest (Or.inl hc), ih f2 rest h1 h2]

/-- Unfolding of the scan at a successful placeholder match: replace or keep
the whole match and continue scanning after its closing `%`, at canonical
fuel. -/
theorem scanSubst_match_step (p : Params) (i r : List Char) (h1 : i ≠ [])
    (h2 : ∀ c ∈ i, isIdentChar c = true) (f : Nat)
    (hf : (i ++ '%' :: r).length ≤ f) :
    scanSubst p (f + 1) ('%' :: (i ++ '%' :: r)) =
      matchText p i ++ scanSubst p r.length r := by
  rw [scanSubst_succ_some p f '%' (i ++ '%' :: r) i r rfl (splitVar_ident i r h1 h2)]
  congr 1
  refine scanSubst_fuel_eq p f r.length r ?_ le_rfl
  simp only [List.length_append, List.length_cons] at hf
  omega

/-- Unfolding of the scan at a character that opens no placeholder match, at
canonical fuel. -/
theorem scanSubst_cons_step (p : Params) (c : Char) (l : List Char) (f : Nat)
    (hf : l.length ≤ f) (hc : c ≠ '%' ∨ splitVar l = none) :
    scanSubst p (f + 1) (c :: l) = c :: scanSubst p l.length l := by
  rw [scanSubst_succ_none p f c l hc]
  rw [scanSubst_fuel_eq p f l.length l hf le_rfl]

/-- C2: the substitution engine consumes its input in one left-to-right
non-overlapping pass: a leading `%name%` match is replaced by the parameter
value's string form when the name is a key (booleans as "true"/"false",
numbers in decimal), and is left verbatim with its delimiters when the name
is absent, the scan continuing after the closing `%` in both cases without an
error; any leading non-`%` character passes through unchanged and scanning
continues on the remainder. -/
theorem C2_substitution (p : Params) (i rest : String) (h1 : i.data ≠ [])
    (h2 : ∀ c ∈ i.data, isIdentChar c = true) (c : Char) (t : String)
    (hc : c ≠ '%') :
    (replaceVariables ("%" ++ i ++ "%" ++ rest) p =
      (match lookupParam p i with
       | some v => Scalar.toJSString v
       | none => "%" ++ i ++ "%") ++ replaceVariables rest p) ∧
    replaceVariables (String.mk (c :: t.data)) p =
      String.mk (c :: (replaceVariables t p).data) ∧
    replaceVariables "" p = "" ∧
    Scalar.toJSString (.bool true) = "true" ∧
    Scalar.toJSString (.bool false) = "false" ∧
    Scalar.toJSString (.num 42) = "42" ∧
    Scalar.toJSString (.str "x") = "x" := by
  refine ⟨?_, ?_, rfl, rfl, rfl, rfl, rfl⟩
  · have hmt : String.mk (matchText p i.data) =
        (match lookupParam p i with
         | some v => Scalar.toJSString v
         | none => "%" ++ i ++ "%") := by
      rw [matchText]
      show String.mk (match lookupParam p i with
        | some v => (Scalar.toJSString v).data
        | none => '%' :: (i.data ++ ['%'])) = _
      cases hl : lookupParam p i with
      | some v => rfl
      | none =>
        have hd : ('%' :: (i.data ++ ['%'])) = ("%" ++ i ++ "%").data := by
          simp [String.data_append]
        rw [hd]
    have hdata : ("%" ++ i ++ "%" ++ rest).data = '%' :: (i.data ++ '%' :: rest.data) := by
      simp [String.data_append]
    rw [replaceVariables, hdata]
    simp only [List.length_cons]
    rw [scanSubst_match_step p i.data rest.data h1 h2 _ le_rfl]
    show String.mk (matchText p i.data) ++
        String.mk (scanSubst p rest.data.length rest.data) = _
    rw [hmt]
    rfl
  · rw [replaceVariables]
    show String.mk (scanSubst p (c :: t.data).length (c :: t.data)) = _
    simp only [List.length_cons]
    rw [scanSubst_cons_step p c t.data t.data.length le_rfl (Or.inl hc)]
    rfl

/-- C2 witness: `C2_substitution` instantiated at identifier "a" (present as
a key, value "X"), remainder "b%c%", and leading character 'q'. -/
theorem C2_witness :
    replaceVariables ("%" ++ "a" ++ "%" ++ "b%c%") [("a", Scalar.str "X")] =
      "Xb%c%" ∧
    replaceVariables (String.mk ('q' :: "r".data)) [("a", Scalar.str "X")] =
      String.mk ('q' :: (replaceVariables "r" [("a", Scalar.str "X")]).data) := by
  have h := C2_substitution [("a", Scalar.str "X")] "a" "b%c%" (by decide)
    (by decide) 'q' "r" (by decide)
  refine ⟨?_, h.2.1⟩
  rw [h.1]
  decide

end DomainConnect
